import Mathlib

/-!
Verification development for the FasTeX_Snippets repository.

The Python sources are shallowly embedded over `List Char` (named `Chars`):
Python strings become `Chars`, the two-variant snippet body becomes the
inductive `Body`, fallible code returns `Except PyErr` or `Option`, and the
handful of fixed regular expressions of the sources are embedded as
deterministic string-matching functions (each such function documents the
regex it implements; all the regexes involved have end-anchored fixed-shape
suffixes, so the greedy captures are uniquely determined and the matchers
below are faithful on every input without whitespace/digit characters
outside ASCII, which is all the tool ever reads).
-/

abbrev Chars := List Char

/-- Convert a Lean string literal to the `List Char` representation. -/
def str2c (s : String) : Chars := s.toList

/-- Python error values that the embedded code can raise. -/
inductive PyErr where
  | valueError : PyErr
  | indexError : PyErr
  | typeError : PyErr
  | keyError (msg : String) : PyErr
  deriving DecidableEq, Repr

/-- Python `\s` / `\S` whitespace test (ASCII range, which covers all data
the tool reads): space, tab, newline, carriage return, vertical tab, form feed. -/
def pyIsSpace (c : Char) : Bool :=
  c = ' ' ∨ c = '\t' ∨ c = '\n' ∨ c = '\r' ∨ c = '\x0b' ∨ c = '\x0c'

/-- Python slice `s[:-k]` (empty for `k = 0` since `s[:-0] = s[:0]`). -/
def pySliceToNeg (k : Nat) (s : Chars) : Chars :=
  if k = 0 then [] else s.take (s.length - k)

/-- Python slice `s[-k:]` (whole string for `k = 0` since `s[-0:] = s[0:]`). -/
def pySliceFromNeg (k : Nat) (s : Chars) : Chars :=
  if k = 0 then s else s.drop (s.length - k)

/-- Drop the pattern `p` from the front of `s`, or fail. -/
def dropPre (p s : Chars) : Option Chars :=
  if p.isPrefixOf s then some (s.drop p.length) else none

/-- Python regex `$` (no MULTILINE): succeeds at the end of the string or
just before one final newline. -/
def pyAtEnd (r : Chars) : Bool := r = [] ∨ r = ['\n']

/-- Strip a single final newline, as regex `$` permits before it. -/
def stripNL (s : Chars) : Chars :=
  if s.getLast? = some '\n' then s.dropLast else s

/-- First index of element `x` in `l`; `none` models Python's `list.index`
raising `ValueError`. -/
def pyIndex (l : List Chars) (x : Chars) : Option Nat :=
  l.findIdx? (· = x)

/-! ### `src/code/read_data.py` -/

/-- The two-variant snippet body: a single-line string or a list of lines. -/
inductive Body where
  | str (s : Chars) : Body
  | arr (l : List Chars) : Body
  deriving DecidableEq, Repr

/-- `read_data.escape_body` on one string: `body.replace('$', '\\$')`. -/
def escape_body_str (s : Chars) : Chars :=
  s.flatMap (fun c => if c = '$' then ['\\', '$'] else [c])

/-- `read_data.escape_body`: escape dollar signs in either body variant. -/
def escape_body : Body → Body
  | .str s => .str (escape_body_str s)
  | .arr l => .arr (l.map escape_body_str)

/-- `read_data.TAB_STOP.sub('', body, count=9)` with
`TAB_STOP = (?<!\\)\$\d`: delete up to `count` unescaped `$`-digit pairs,
scanning left to right; `prevBS` tracks whether the previous character of
the original string is a backslash (the negative lookbehind). -/
def subTabStopDel (count : Nat) (prevBS : Bool) : Chars → Chars
  | c :: d :: rest =>
    if c = '$' ∧ d.isDigit ∧ prevBS = false ∧ 0 < count then
      subTabStopDel (count - 1) false rest
    else
      c :: subTabStopDel count (c = '\\') (d :: rest)
  | [c] => [c]
  | [] => []

/-- Python `str.replace('\\$', '$')`: leftmost, non-overlapping. -/
def replaceBSDollar : Chars → Chars
  | '\\' :: '$' :: rest => '$' :: replaceBSDollar rest
  | c :: rest => c :: replaceBSDollar rest
  | [] => []

/-- Python `str.replace('\\$1', '$ 1')`: leftmost, non-overlapping. -/
def replaceBSDollarOne : Chars → Chars
  | '\\' :: '$' :: '1' :: rest => '$' :: ' ' :: '1' :: replaceBSDollarOne rest
  | c :: rest => c :: replaceBSDollarOne rest
  | [] => []

/-- Python `str.lstrip('%&')`. -/
def lstripPercentAmp : Chars → Chars
  | c :: rest => if c = '%' ∨ c = '&' then lstripPercentAmp rest else c :: rest
  | [] => []

/-- `read_data.make_description` on a plain string body:
`TAB_STOP.sub('', body, count=9).replace('\\$', '$')`. -/
def mdStr (s : Chars) : Chars :=
  replaceBSDollar (subTabStopDel 9 false s)

/-- Divider test of `make_description`: `describe.startswith(('%====', '%----'))`. -/
def isDividerLine (d : Chars) : Bool :=
  (str2c "%====").isPrefixOf d ∨ (str2c "%----").isPrefixOf d

/-- `read_data.make_description` on a list body, recursing on `body[1:]`;
`none` models the `IndexError` of `body[0]` on an empty list. -/
def mdList (trigger : Chars) : List Chars → Option Chars
  | [] => none
  | x :: rest =>
    let d := mdStr x
    if isDividerLine d then
      if (str2c "c").isPrefixOf trigger then
        some (str2c "Divider: " ++
          List.intercalate (str2c ";") ((x :: rest).map (fun y => y.take 10)))
      else mdList trigger rest
    else some (lstripPercentAmp d)

/-- `read_data.make_description`. -/
def make_description : Body → Chars → Option Chars
  | .str s, _ => some (mdStr s)
  | .arr l, trigger => mdList trigger l

/-- Python `body.count('\\$')`: non-overlapping occurrences of `\$`. -/
def countBSDollar : Chars → Nat
  | '\\' :: '$' :: rest => countBSDollar rest + 1
  | _ :: rest => countBSDollar rest
  | [] => 0

/-- `read_data.TEXT_START`. -/
def TEXT_START : List Chars :=
  [str2c "\\usepackage", str2c "\\new", str2c "\\renew", str2c "\\leftline",
   str2c "\\rightline", str2c "\\doc", str2c "\\text", str2c "\\section",
   str2c "\\fbox"]

/-- `read_data.MATHS_START`. -/
def MATHS_START : List Chars :=
  [str2c "\\frac", str2c "\\math", str2c "\\operatorname", str2c "\\sqrt",
   str2c "\\left", str2c "\\right", str2c "\\var", str2c "\\over",
   str2c "\\wide", str2c "\\dot", str2c "\\ddot", str2c "\\bar",
   str2c "\\bar", str2c "\\vec", str2c "\\hat", str2c "\\tilde"]

/-- Python substring test `pat in s`. -/
def containsSub (pat : Chars) : Chars → Bool
  | [] => pat.isPrefixOf []
  | c :: rest => pat.isPrefixOf (c :: rest) ∨ containsSub pat rest

/-- Python `body.startswith(tuple)`: any of the given prefixes. -/
def startsAny (pres : List Chars) (s : Chars) : Bool :=
  pres.any (fun p => p.isPrefixOf s)

/-- `read_data.choose_mode` (the body is never `None` where this is called
from `next_ini_entry`, so the `None` branch is dropped). -/
def choose_mode (body : Body) (trigger : Chars) : String :=
  match body with
  | .arr _ => if (str2c "mx").isPrefixOf trigger then "maths" else "text"
  | .str b =>
    if 2 ≤ countBSDollar b then "text"
    else if (str2c "w").isPrefixOf trigger ∧ ¬ (str2c "\\").isPrefixOf b then "text"
    else if (str2c "w").isPrefixOf trigger ∧ (str2c "\\").isPrefixOf b then "maths"
    else if (str2c "o").isPrefixOf trigger ∧ (str2c "(").isPrefixOf b then "maths"
    else if (str2c "x").isPrefixOf trigger then "maths"
    else if b.contains '_' ∨ b.contains '^' ∨ containsSub (str2c "\\frac") b then "maths"
    else if startsAny [str2c "\\textstyle", str2c "\\text\x7b\x7d"] b then "maths"
    else if startsAny TEXT_START b then "text"
    else if startsAny MATHS_START b then "maths"
    else "any"

/-- `read_data.get_template`: locate the block of `trigger` in the `.dat`
lines; a failed `list.index` lookup raises `ValueError`, which propagates. -/
def get_template (dat_text : List Chars) (trigger : Chars) : Except PyErr (List Chars) :=
  match pyIndex dat_text (trigger ++ ['\n']) with
  | none => .error .valueError
  | some pre =>
    match pyIndex dat_text ('-' :: trigger ++ str2c "-\n") with
    | none => .error .valueError
    | some stop =>
      let start := pre + 1
      .ok (((dat_text.drop start).take (stop - start)).map
        (fun x => escape_body_str (x.take (x.length - 1))))

/-! ### The macro pattern matchers of `src/code/read_data.py`

`TEMPLATE_PRE = Assign\('FasTeX','(\S*)'\);Exe\('%b\\Macros\\Active Strings\\FasTeX\\FasTeX_Templates.edt'\);`
followed by one of the suffixes of `TEMPLATES = (TEMPLATE_ZERO, TEMPLATE_ONES, TEMPLATE_ONE)`;
`INSERT_PRE = ^BeginGroup;Backspace\(\d+\);Ins\([`'](.*)[`']\);` followed by
one of the suffixes of `INSERTS = (INSERT_ZERO, INSERT_ONE, INSERT_ONES, INSERT_TWO)`.
Every pattern is anchored at both ends and the text after each greedy capture
has a fixed length, so each match is uniquely determined; the greedy `(\S*)`
is realised by trying capture lengths from the maximal non-space run downward. -/

/-- Literal head of `TEMPLATE_PRE` before the capture group. -/
def ASSIGN_LIT : Chars := str2c "Assign('FasTeX','"

/-- Literal of `TEMPLATE_PRE` after the capture, up to the `.` wildcard of
`FasTeX_Templates.edt` (the regex dot matches any non-newline character). -/
def EXE_LIT1 : Chars := str2c "');Exe('%b\\Macros\\Active Strings\\FasTeX\\FasTeX_Templates"

/-- Literal of `TEMPLATE_PRE` after the `.` wildcard. -/
def EXE_LIT2 : Chars := str2c "edt');"

/-- Tail matcher for `TEMPLATE_ZERO` (`TEMPLATE_PRE + "$"`). -/
def templTail0 (r : Chars) : Option (Option Nat) :=
  if pyAtEnd r then some none else none

/-- Tail matcher for `LineUp\((\d)\);TrackCaret;` + `extra` + `$`
(`extra = "CharLeft;"` for `TEMPLATE_ONES`, empty for `TEMPLATE_ONE`). -/
def templTailLineUp (extra : Chars) (r : Chars) : Option (Option Nat) :=
  match dropPre (str2c "LineUp(") r with
  | none => none
  | some r1 =>
    match r1 with
    | [] => none
    | d :: r2 =>
      if d.isDigit then
        match dropPre (str2c ");TrackCaret;" ++ extra) r2 with
        | some r3 => if pyAtEnd r3 then some (some (d.toNat - 48)) else none
        | none => none
      else none

/-- After a candidate `(\S*)` capture: the `Exe` literal with its one-char
wildcard (any character but newline), then the pattern tail. -/
def templAfterCap (tail : Chars → Option (Option Nat)) (r : Chars) : Option (Option Nat) :=
  match dropPre EXE_LIT1 r with
  | none => none
  | some r1 =>
    match r1 with
    | [] => none
    | w :: r2 => if w = '\n' then none else
      match dropPre EXE_LIT2 r2 with
      | none => none
      | some r3 => tail r3

/-- Greedy `(\S*)`: try capture lengths from `k` downward. -/
def templGreedy (tail : Chars → Option (Option Nat)) (rest : Chars) :
    Nat → Option (Chars × Option Nat)
  | 0 =>
    match templAfterCap tail rest with
    | some dg => some ([], dg)
    | none => none
  | k + 1 =>
    match templAfterCap tail (rest.drop (k + 1)) with
    | some dg => some (rest.take (k + 1), dg)
    | none => templGreedy tail rest k

/-- Match one of the template-shaped patterns (`re.match`, so anchored at
the start): returns the captured identifier and the `LineUp` digit. -/
def matchTemplateWith (tail : Chars → Option (Option Nat)) (s : Chars) :
    Option (Chars × Option Nat) :=
  match dropPre ASSIGN_LIT s with
  | none => none
  | some rest => templGreedy tail rest ((rest.takeWhile (fun c => ¬ pyIsSpace c)).length)

/-- `read_data.get_macro_matches(macro, TEMPLATES)`: first match wins, in the
order `TEMPLATE_ZERO`, `TEMPLATE_ONES`, `TEMPLATE_ONE`; result is the
captured identifier, the index of the pattern that matched, and the digit. -/
def matchTemplates (s : Chars) : Option (Chars × Nat × Option Nat) :=
  match matchTemplateWith templTail0 s with
  | some (t, dg) => some (t, 0, dg)
  | none =>
    match matchTemplateWith (templTailLineUp (str2c "CharLeft;")) s with
    | some (t, dg) => some (t, 1, dg)
    | none =>
      match matchTemplateWith (templTailLineUp []) s with
      | some (t, dg) => some (t, 2, dg)
      | none => none

/-- Quote class `` [`'] `` of `INSERT_PRE`. -/
def isQuoteChar (c : Char) : Bool := c = '\'' ∨ c = '`'

/-- Match `INSERT_PRE` up to and including the opening quote, returning the
remaining text (capture plus closing quote plus pattern suffix). -/
def matchInsertPre (s : Chars) : Option Chars :=
  match dropPre (str2c "BeginGroup;Backspace(") s with
  | none => none
  | some r1 =>
    let ds := r1.takeWhile Char.isDigit
    if ds = [] then none else
    match dropPre (str2c ");Ins(") (r1.drop ds.length) with
    | none => none
    | some r2 =>
      match r2 with
      | q :: r3 => if isQuoteChar q then some r3 else none
      | [] => none

/-- Match `(.*)` + `` [`'] `` + the fixed suffix `sfx` + `$`: the capture is
everything before the closing quote, which sits exactly `sfx.length + 1`
characters from the end; `.*` cannot cross a newline. -/
def matchInsTailFixed (sfx : Chars) (r : Chars) : Option Chars :=
  let r1 := stripNL r
  let n := r1.length
  if sfx.length + 1 ≤ n ∧ r1.drop (n - sfx.length) = sfx then
    match (r1.drop (n - sfx.length - 1)).head? with
    | some q =>
      if isQuoteChar q ∧ (r1.take (n - sfx.length - 1)).contains '\n' = false then
        some (r1.take (n - sfx.length - 1))
      else none
    | none => none
  else none

/-- Match `(.*)` + `` [`'] `` + `pre` + `(\d)` + `post` + `$`. -/
def matchInsTailDigit (pre post : Chars) (r : Chars) : Option (Chars × Nat) :=
  let r1 := stripNL r
  let n := r1.length
  let tailLen := pre.length + post.length + 2
  if tailLen ≤ n ∧ ((r1.drop (n - tailLen)).take 1).any isQuoteChar then
    match dropPre pre (r1.drop (n - tailLen + 1)) with
    | none => none
    | some r2 =>
      match r2 with
      | d :: r3 =>
        if d.isDigit ∧ r3 = post ∧ (r1.take (n - tailLen)).contains '\n' = false then
          some (r1.take (n - tailLen), d.toNat - 48)
        else none
      | [] => none
  else none

/-- `read_data.get_macro_matches(macro, INSERTS)`: first match wins, in the
order `INSERT_ZERO`, `INSERT_ONE`, `INSERT_ONES`, `INSERT_TWO`; result is
the captured literal text, the pattern index, and the `CharLeft` digit. -/
def matchInserts (s : Chars) : Option (Chars × Nat × Option Nat) :=
  match matchInsertPre s with
  | none => none
  | some r =>
    match matchInsTailFixed (str2c ");EndGroup;") r with
    | some mid => some (mid, 0, none)
    | none =>
      match matchInsTailFixed (str2c ");CharLeft;EndGroup;") r with
      | some mid => some (mid, 1, none)
      | none =>
        match matchInsTailDigit (str2c ");CharLeft(") (str2c ");EndGroup;") r with
        | some (mid, d) => some (mid, 2, some d)
        | none =>
          match matchInsTailDigit (str2c ");CharLeft;CharLeft(") (str2c ");EndGroup;") r with
          | some (mid, d) => some (mid, 3, some d)
          | none => none

/-- Python negative list index `l[-n]` (`l[-0]` is `l[0]`); `none` models
`IndexError`. -/
def pyNegIdx (l : List Chars) (n : Nat) : Option Nat :=
  if n = 0 then (if l.isEmpty then none else some 0)
  else if n ≤ l.length then some (l.length - n) else none

/-- Replace the element of `l` at valid index `i` by `f` applied to it. -/
def listModify (l : List Chars) (i : Nat) (f : Chars → Chars) : List Chars :=
  l.set i (f (l.getD i []))

/-- `read_data.get_macro_template`: match the template patterns, look the
identifier up in the `.dat` lines (a missing identifier propagates the
`ValueError` of `get_template`), then splice the `$1` tab stop into the
line counted from the end by the captured digit. -/
def get_macro_template (mac : Chars) (dat_text : List Chars) :
    Except PyErr (Option (List Chars)) :=
  match matchTemplates mac with
  | none => .ok none
  | some (trigger, index, dg) =>
    match get_template dat_text trigger with
    | .error e => .error e
    | .ok body =>
      if index = 2 then
        match dg with
        | some line_num =>
          match pyNegIdx body line_num with
          | none => .error .indexError
          | some i => .ok (some (listModify body i (fun line => line ++ str2c "$1")))
        | none => .error .indexError
      else if index = 1 then
        match dg with
        | some line_num =>
          match pyNegIdx body line_num with
          | none => .error .indexError
          | some i => .ok (some (listModify body i (fun line =>
              pySliceToNeg 1 line ++ str2c "$1" ++ pySliceFromNeg 1 line)))
        | none => .error .indexError
      else .ok (some body)

/-- `read_data.get_macro_insert`: match the insertion patterns, escape the
captured literal text, then splice tab stops counted from the end. -/
def get_macro_insert (mac : Chars) : Option Chars :=
  match matchInserts mac with
  | none => none
  | some (mid, index, dg) =>
    let body := escape_body_str mid
    if index = 0 then some body
    else if index = 1 then
      some (pySliceToNeg 1 body ++ str2c "$1" ++ pySliceFromNeg 1 body)
    else
      match dg with
      | none => none
      | some char_num =>
        if index = 2 then
          some (pySliceToNeg char_num body ++ str2c "$1" ++ pySliceFromNeg char_num body)
        else
          let body2 := pySliceToNeg (char_num + 1) body ++ str2c "$1" ++
            pySliceFromNeg (char_num + 1) body
          -- second tab-stop was a Winedt bullet - remove
          some (pySliceToNeg 2 body2 ++ str2c "$2" ++ pySliceFromNeg 1 body2)

/-- `read_data.TRIGGER = ^STRING="(\S*)  "$` applied with `re.match`;
returns the captured group. -/
def TRIGGER_match (line : Chars) : Option Chars :=
  let core := stripNL line
  match dropPre (str2c "STRING=\"") core with
  | none => none
  | some r =>
    let n := r.length
    if 3 ≤ n ∧ r.drop (n - 3) = str2c "  \"" ∧
        (r.take (n - 3)).all (fun c => ¬ pyIsSpace c) then
      some (r.take (n - 3))
    else none

/-- `read_data.MACRO = ^  MACRO="\[(.*)\]"$` applied with `re.match`;
returns the captured group. -/
def MACRO_match (line : Chars) : Option Chars :=
  let core := stripNL line
  match dropPre (str2c "  MACRO=\"[") core with
  | none => none
  | some r =>
    let n := r.length
    if 2 ≤ n ∧ r.drop (n - 2) = str2c "]\"" ∧ (r.take (n - 2)).contains '\n' = false then
      some (r.take (n - 2))
    else none

/-- `read_data.next_ini_line`: read one line (a real file yields `''` only
at end of file) and match it; the file is a list of lines plus a cursor. -/
def next_ini_line (file : List Chars) (check : Chars → Option Chars) :
    Option Chars × List Chars :=
  match file with
  | [] => (none, [])
  | l :: rest => if l = [] then (none, rest) else (check l, rest)

/-- `read_data.get_ini_trigger`. -/
def get_ini_trigger (file : List Chars) : Option Chars × List Chars :=
  next_ini_line file TRIGGER_match

/-- `read_data.get_ini_macro`: skip two lines, then match the macro line. -/
def get_ini_macro (file : List Chars) : Option Chars × List Chars :=
  next_ini_line (file.drop 2) MACRO_match

/-- One normalized snippet record, as produced by `next_ini_entry`
(`pfx` embeds the `'prefix'` key of the Python dict). -/
structure Snippet where
  pfx : Chars
  body : Body
  mode : String
  description : Chars
  deriving DecidableEq, Repr

/-- `read_data.next_ini_entry`: read a trigger and a macro, derive a body
from the template table or the insertion text, and build the record;
`.ok none` is Python's `None` (no recognizable entry), errors propagate. -/
def next_ini_entry (file : List Chars) (dat_text : List Chars) :
    Except PyErr (Option Snippet × List Chars) :=
  let (trig?, f1) := get_ini_trigger file
  let (mac?, f2) := get_ini_macro f1
  match trig?, mac? with
  | some trigger, some mac =>
    match get_macro_template mac dat_text with
    | .error e => .error e
    | .ok tplBody =>
      let body? : Option Body :=
        match tplBody with
        | some lines => some (.arr lines)
        | none =>
          match get_macro_insert mac with
          | some s => some (.str s)
          | none => none
      match body? with
      | none => .ok (none, f2)
      | some body =>
        let mode := choose_mode body trigger
        match make_description body trigger with
        | none => .error .indexError
        | some describe =>
          .ok (some ⟨trigger, body, mode, describe⟩, f2)
  | _, _ => .ok (none, f2)

/-! ### `src/readwrite/write_snippets.py`

`TAB_STOP = (?<!\\)\$(\d)` here captures the digit. The helper functions
with a leading underscore in the source are embedded without it. -/

/-- `write_snippets.TAB_STOP.findall(body)` as digit values: every unescaped
`$`-digit pair, scanning left to right; `prevBS` is the original previous
character's backslash test (the negative lookbehind). -/
def findTabStops (prevBS : Bool) : Chars → List Nat
  | c :: d :: rest =>
    if c = '$' ∧ d.isDigit ∧ prevBS = false then
      (d.toNat - 48) :: findTabStops false rest
    else findTabStops (c = '\\') (d :: rest)
  | _ => []

/-- `max(..., default=0)`. -/
def maxListD (l : List Nat) : Nat := l.foldr max 0

/-- `write_snippets._count_tabs` (identical to `code.write_snippets.count_tabs`). -/
def count_tabs : Body → Nat
  | .str s => maxListD (findTabStops false s)
  | .arr l => maxListD (l.map (fun s => maxListD (findTabStops false s)))

/-- `re.sub(fr'[^\\]\$\x7bmaxtab\x7d', '$0', body)`: one non-backslash
character followed by `$` and the decimal digits of `maxtab` is replaced —
preceding character included — by `$0`; scanning resumes after the match. -/
def subVsc (maxtab : Nat) : Chars → Chars
  | [] => []
  | c :: rest =>
    if c ≠ '\\' ∧ ('$' :: str2c (toString maxtab)).isPrefixOf rest then
      '$' :: '0' :: subVsc maxtab (rest.drop (1 + (str2c (toString maxtab)).length))
    else c :: subVsc maxtab rest
  termination_by l => l.length
  decreasing_by
    · simp only [List.length_cons, List.length_drop]; omega
    · simp only [List.length_cons]; omega

/-- `write_snippets._convert_body_vsc` on one string:
`if endtab or maxtab == 0: return body` else the `[^\\]\$n → $0` rewrite. -/
def convert_body_vsc_str (s : Chars) (endtab : Bool) (maxtab : Nat) : Chars :=
  if endtab = true ∨ maxtab = 0 then s else subVsc maxtab s

/-- `write_snippets._convert_body_vsc`, identical to
`code.write_snippets.convert_body_vsc` (text-identical function in the two
source files): map over a list body, rewrite a string body. -/
def convert_body_vsc : Body → Bool → Nat → Body
  | .str s, endtab, maxtab => .str (convert_body_vsc_str s endtab maxtab)
  | .arr l, endtab, maxtab => .arr (l.map (fun s => convert_body_vsc_str s endtab maxtab))

/-- `write_snippets._body_append`. -/
def body_append (body : Body) (addendum : Chars) : Body :=
  match body with
  | .arr l => .arr (l ++ [addendum])
  | .str s => .str (s ++ addendum)

/-- `write_snippets._body_prepend`. -/
def body_prepend (body : Body) (addendum : Chars) : Body :=
  match body with
  | .arr l => .arr (addendum :: l)
  | .str s => .str (addendum ++ s)

/-- `write_snippets._help_body_atom`: `body.replace('\\', '\\\\\\\\')` (each
backslash becomes four) then `body.replace('"', '\\"')`. -/
def help_body_atom (s : Chars) : Chars :=
  (s.flatMap (fun c => if c = '\\' then ['\\', '\\', '\\', '\\'] else [c])).flatMap
    (fun c => if c = '"' then ['\\', '"'] else [c])

/-- `write_snippets._convert_body_atom`: optionally append a `$(maxtab+1)`
stop, then escape each line and join a list body with a real newline. -/
def convert_body_atom (body : Body) (endtab : Bool) (maxtab : Nat) : Chars :=
  let body := if endtab = true ∧ maxtab ≠ 0 then
    body_append body ('$' :: str2c (toString (maxtab + 1))) else body
  match body with
  | .arr l => List.intercalate ['\n'] (l.map help_body_atom)
  | .str s => help_body_atom s

/-- `write_snippets.TAB_STOP.sub('$$\\1', body)`: double the sigil of every
unescaped tab-stop marker, keeping the digit (group backreference). -/
def subTabDouble (prevBS : Bool) : Chars → Chars
  | c :: d :: rest =>
    if c = '$' ∧ d.isDigit ∧ prevBS = false then
      '$' :: '$' :: d :: subTabDouble false rest
    else c :: subTabDouble (c = '\\') (d :: rest)
  | [c] => [c]
  | [] => []

/-- `write_snippets._help_body_live`: optional `[^\\]\$maxtab → $0` rewrite,
double every unescaped marker's sigil, then `'\$1' → '$ 1'` and `'\$' → '$'`. -/
def help_body_live (s : Chars) (endtab : Bool) (maxtab : Nat) : Chars :=
  let s1 := if endtab = false ∨ maxtab ≠ 0 then subVsc maxtab s else s
  replaceBSDollar (replaceBSDollarOne (subTabDouble false s1))

/-- `write_snippets._convert_body_live` (embedded as `convert_body_live_rw`
to keep it apart from `code.write_snippets.convert_body_live`): convert each
line, prepend the `$1` stop, join a list body with the two characters `\n`. -/
def convert_body_live_rw (body : Body) (endtab : Bool) (maxtab : Nat) : Chars :=
  match body with
  | .arr l => List.intercalate (str2c "\\n") (str2c "$1" :: l.map (fun s => help_body_live s endtab maxtab))
  | .str s => str2c "$1" ++ help_body_live s endtab maxtab

/-- Result record of `write_snippets.convert_one_vsc`. -/
structure VscSnippet where
  pfx : Chars
  body : Body
  description : Chars
  deriving DecidableEq, Repr

/-- `write_snippets.convert_one_vsc` (the same computation as
`code.write_snippets.convert_snippet_vsc`): `maxtab = 0`, recomputed as
`_count_tabs` when `endtab` is false; decorate the trigger. -/
def convert_one_vsc (snippet : Snippet) (pre sfx : Chars) (endtab : Bool) : VscSnippet :=
  let maxtab := if endtab = true then 0 else count_tabs snippet.body
  ⟨pre ++ snippet.pfx ++ sfx, convert_body_vsc snippet.body endtab maxtab,
   snippet.description⟩

/-- Result record of `write_snippets.convert_one_atom`. -/
structure AtomSnippet where
  pfx : Chars
  body : Chars
  deriving DecidableEq, Repr

/-- `write_snippets.convert_one_atom`. -/
def convert_one_atom (snippet : Snippet) (pre sfx : Chars) (endtab : Bool) : AtomSnippet :=
  let maxtab := if endtab = true then 0 else count_tabs snippet.body
  ⟨pre ++ snippet.pfx ++ sfx, convert_body_atom snippet.body endtab maxtab⟩

/-- Result record of `write_snippets.convert_one_live`. -/
structure LiveSnippet where
  pfx : Chars
  body : Chars
  mode : String
  triggerWhenComplete : Bool
  description : Chars
  priority : Nat
  deriving DecidableEq, Repr

/-- `write_snippets.convert_one_live`: the trigger gains the live anchor
`(^|[^\\])`, the body gains the leading `$1` stop. -/
def convert_one_live (snippet : Snippet) (pre sfx : Chars) (endtab : Bool) : LiveSnippet :=
  let maxtab := if endtab = true then 0 else count_tabs snippet.body
  ⟨str2c "(^|[^\\\\])" ++ pre ++ snippet.pfx ++ sfx,
   convert_body_live_rw snippet.body endtab maxtab,
   snippet.mode, true, snippet.description, snippet.pfx.length⟩

/-! ### `src/code/write_snippets.py` (the earlier variant of the converters) -/

/-- `code.write_snippets.TAB_STOP.sub('$$\1', body)`: the replacement string
is the non-raw Python literal `'$$\1'`, i.e. `$$` followed by the control
character `U+0001` — the captured digit is dropped, not referenced. -/
def subTabCtrl (prevBS : Bool) : Chars → Chars
  | c :: d :: rest =>
    if c = '$' ∧ d.isDigit ∧ prevBS = false then
      '$' :: '$' :: Char.ofNat 1 :: subTabCtrl false rest
    else c :: subTabCtrl (c = '\\') (d :: rest)
  | [c] => [c]
  | [] => []

/-- `code.write_snippets.convert_body_live`: `TAB_STOP.sub('$$\1', body)`
then `'$1' + body`; the `endtab` and `maxtab` parameters are accepted but
never used by the source. -/
def convert_body_live (body : Chars) (_endtab : Bool) (_maxtab : Nat) : Chars :=
  str2c "$1" ++ subTabCtrl false body

/-- `write_snippets.TEX_OLD = ^\x7b\\([a-z][a-z]) $` applied with `re.match`:
the body is exactly an opening brace, a backslash, two lowercase letters
and a space; returns the two captured letters. -/
def TEX_OLD_match (s : Chars) : Option (Char × Char) :=
  match s with
  | ['\x7b', '\\', a, b, ' '] =>
    if 'a' ≤ a ∧ a ≤ 'z' ∧ 'a' ≤ b ∧ b ≤ 'z' then some (a, b) else none
  | _ => none

/-- `write_snippets._modern_vsc`: replace a `\x7b\?? ` body by the
choice-tab-stop form `$\x7b1|\text,\math|\x7d??\x7b$2\x7d` with mode `any`;
other snippets pass through unchanged. -/
def modern_vsc (snippet : Snippet) : Snippet :=
  match snippet.body with
  | .arr _ => snippet
  | .str s =>
    match TEX_OLD_match s with
    | none => snippet
    | some (a, b) =>
      { snippet with
          mode := "any"
          body := .str (str2c "$\x7b1|\\text,\\math|\x7d" ++ [a, b] ++ str2c "\x7b$2\x7d") }

/-- `write_snippets._modern_live`: guarded by
`if not (isinstance(body, str) or mode == "any"): return snippet`; a list
body that does reach `TEX_OLD.match` raises `TypeError` (a compiled pattern
cannot match a list); a matching string body is split into a text-mode and a
maths-mode snippet (the doubled backslashes are the source's own escaping). -/
def modern_live (snippet : Snippet) : Except PyErr (Snippet ⊕ (Snippet × Snippet)) :=
  match snippet.body with
  | .arr _ =>
    if snippet.mode = "any" then .error .typeError else .ok (.inl snippet)
  | .str s =>
    match TEX_OLD_match s with
    | none => .ok (.inl snippet)
    | some (a, b) =>
      .ok (.inr
        ({ snippet with
             mode := "text"
             body := .str (str2c "\\\\text" ++ [a, b] ++ str2c "\x7b$1\x7d") },
         { snippet with
             mode := "maths"
             body := .str (str2c "\\\\math" ++ [a, b] ++ str2c "\x7b$1\x7d") }))

/-- Is `\$` at index `i` of `s`? -/
def bsDollarAt (s : Chars) (i : Nat) : Bool :=
  (str2c "\\$").isPrefixOf (s.drop i)

/-- Closing positions for an opening `\$` at `i` in
`DOUBLE_DOLLAR = \\\$(.*)\\\$`: a later `\$` with no newline in between
(regex `.` does not cross a newline). -/
def ddCloses (s : Chars) (i : Nat) : List Nat :=
  (List.range s.length).filter
    (fun j => i + 2 ≤ j ∧ bsDollarAt s j ∧
      ((s.drop (i + 2)).take (j - (i + 2))).contains '\n' = false)

/-- First matching position of `DOUBLE_DOLLAR` in `s`: the earliest opening
`\$` that has a closing one, paired with its greedy (last) closing index. -/
def ddFind (s : Chars) : Option (Nat × Nat) :=
  match ((List.range s.length).filter
      (fun i => bsDollarAt s i ∧ ddCloses s i ≠ [])).head? with
  | none => none
  | some i =>
    match (ddCloses s i).getLast? with
    | none => none
    | some j => some (i, j)

/-- `DOUBLE_DOLLAR.sub(r'\(\1\)', s)` driven by `fuel` (any
`fuel ≥ s.length` is exact): each match `\$…\$` becomes `\(…\)` and
scanning resumes after it. -/
def ddSub (fuel : Nat) (s : Chars) : Chars :=
  match fuel with
  | 0 => s
  | fuel + 1 =>
    match ddFind s with
    | none => s
    | some (i, j) =>
      s.take i ++ str2c "\\(" ++ (s.drop (i + 2)).take (j - (i + 2)) ++ str2c "\\)" ++
        ddSub fuel (s.drop (j + 2))

/-- `write_snippets._un_dollar`: replace `\$…\$` by `\(…\)` in a
single-line body when `DOUBLE_DOLLAR.search` finds a match. -/
def un_dollar (snippet : Snippet) : Snippet :=
  match snippet.body with
  | .arr _ => snippet
  | .str s =>
    match ddFind s with
    | none => snippet
    | some _ => { snippet with body := .str (ddSub s.length s) }

/-- The members a body rule is searched against on the final line of
`_choose`: `for line in the_body` iterates the lines of a list body but the
single characters of a string body. -/
def iterBody : Body → List Chars
  | .arr l => l
  | .str s => s.map (fun c => [c])

/-- `write_snippets._choose`: exclusion filter for one snippet. The regex
rules are embedded as boolean functions — `pfxRules` are applied the way
`re.match` is used on the trigger, `bodyRules` the way `re.search` is used
on the body. -/
def _choose (snippet : Snippet) (pfxRules bodyRules : List (Chars → Bool))
    (multiline singleline : Bool) : Bool :=
  let multi := match snippet.body with | .arr _ => true | .str _ => false
  if multiline = false ∧ multi = true then false
  else if singleline = false ∧ multi = false then false
  else if pfxRules.any (fun rule => rule snippet.pfx) then false
  else if multi = false ∧
      bodyRules.any (fun rule => rule (match snippet.body with | .str s => s | .arr _ => [])) then
    false
  else ¬ bodyRules.any (fun rule => (iterBody snippet.body).any (fun line => rule line))

/-- Python `dict.pop(key, default)` on a keyword dict (keys unique):
the value when present, the default otherwise, plus the remaining dict. -/
def dictPop (key : String) (dflt : Bool) (d : List (String × Bool)) :
    Bool × List (String × Bool) :=
  match d.find? (fun kv => kv.1 = key) with
  | some kv => (kv.2, d.filter (fun kv2 => kv2.1 ≠ key))
  | none => (dflt, d)

/-- The per-snippet body of the `apply_options` loop, after the keyword
check has passed. -/
def applyLoop (pfxRules bodyRules : List (Chars → Bool))
    (multiline singleline textmaths dollarfix modern : Bool) :
    List Snippet → Except PyErr (List Snippet)
  | [] => .ok []
  | snip :: rest =>
    if _choose snip pfxRules bodyRules multiline singleline = false then
      applyLoop pfxRules bodyRules multiline singleline textmaths dollarfix modern rest
    else
      let snip := if textmaths = false then { snip with mode := "any" } else snip
      let snip := if dollarfix = true then un_dollar snip else snip
      if modern = true then
        if textmaths = true then
          match modern_live snip with
          | .error e => .error e
          | .ok (.inr (t, m)) =>
            match applyLoop pfxRules bodyRules multiline singleline textmaths dollarfix modern rest with
            | .error e => .error e
            | .ok l => .ok (t :: m :: l)
          | .ok (.inl s) =>
            match applyLoop pfxRules bodyRules multiline singleline textmaths dollarfix modern rest with
            | .error e => .error e
            | .ok l => .ok (s :: l)
        else
          match applyLoop pfxRules bodyRules multiline singleline textmaths dollarfix modern rest with
          | .error e => .error e
          | .ok l => .ok (modern_vsc snip :: l)
      else
        match applyLoop pfxRules bodyRules multiline singleline textmaths dollarfix modern rest with
        | .error e => .error e
        | .ok l => .ok (snip :: l)

/-- `write_snippets.apply_options`: pop the five known keyword options, fail
with a `KeyError` naming every remaining key before touching any snippet,
then cull and transform the list. -/
def apply_options (snippets : List Snippet)
    (pfxRules bodyRules : List (Chars → Bool))
    (kwds : List (String × Bool)) : Except PyErr (List Snippet) :=
  let p1 := dictPop "multiline" true kwds
  let p2 := dictPop "singleline" true p1.2
  let p3 := dictPop "textmaths" true p2.2
  let p4 := dictPop "dollarfix" false p3.2
  let p5 := dictPop "modern" false p4.2
  if p5.2 ≠ [] then
    .error (.keyError ("Unknown key words: " ++
      String.intercalate ", " (p5.2.map (fun kv => kv.1))))
  else
    applyLoop pfxRules bodyRules p1.1 p2.1 p3.1 p4.1 p5.1 snippets

/-! ### `src/readwrite/cson.py` -/

/-- A serializable value (`CSONable`): null, boolean, number, string,
sequence, or string-keyed mapping. -/
inductive CVal where
  | nul : CVal
  | boolean (b : Bool) : CVal
  | num (n : Int) : CVal
  | strv (s : Chars) : CVal
  | arr (l : List CVal) : CVal
  | dict (l : List (Chars × CVal)) : CVal
  deriving Repr

/-- The `self.parent` field of `CSONWriter`: `''`, `'list'` or `'dict'`. -/
inductive Parent where
  | top : Parent
  | plist : Parent
  | pdict : Parent
  deriving DecidableEq, Repr

/-- The mutable state of a `CSONWriter` (the output stream only ever grows,
so the methods below return the text they append). -/
structure Ctx where
  indent : Nat
  level : Int
  par : Parent
  deriving DecidableEq, Repr

/-- `' ' * (self.indent * self.level)` (empty for a negative level). -/
def spacesFor (c : Ctx) : Chars :=
  List.replicate (((c.indent : Int) * c.level).toNat) ' '

/-- `CSONWriter.write_raw`: optional indent, the text, optional newline
(the `if text:` guard skips only empty writes, which appends nothing). -/
def writeRaw (c : Ctx) (text : Chars) (started ended : Bool) : Chars :=
  (if started then spacesFor c else []) ++ text ++ (if ended then ['\n'] else [])

/-- Python `str.splitlines()` restricted to `'\n'` breaks (the only line
break the tool's data contains): no entry for a final newline. -/
def pySplitlines : Chars → List Chars
  | [] => []
  | c :: cs =>
    if c = '\n' then [] :: pySplitlines cs
    else
      match pySplitlines cs with
      | [] => [[c]]
      | l :: ls => (c :: l) :: ls

/-- `CSONWriter.write_str`: a string with a line break becomes a block
string (bare opening `"""` line, each source line indented at the current
level, indented closing `"""`); otherwise an inline quoted string. -/
def writeStr (c : Ctx) (s : Chars) : Chars :=
  if s.contains '\n' then
    writeRaw c (str2c "\"\"\"") false true ++
    (pySplitlines s).flatMap (fun line => writeRaw c line true true) ++
    writeRaw c (str2c "\"\"\"") true false
  else writeRaw c ('"' :: s ++ ['"']) false false

/-- `CSONWriter.write_num`: `write_raw(str(value))`; the argument is the
`str()` rendering of the Number object received. -/
def writeNum (c : Ctx) (rendered : Chars) : Chars :=
  writeRaw c rendered false false

/-- `CSONWriter.write_bool`: lowercase `true` / `false`. -/
def writeBool (c : Ctx) (value : Bool) : Chars :=
  if value then writeRaw c (str2c "true") false false
  else writeRaw c (str2c "false") false false

/-- `str()` of a Python `bool`. -/
def pyStrBool (b : Bool) : Chars := if b then str2c "True" else str2c "False"

/-- `str()` of a Python `int`. -/
def pyStrInt (n : Int) : Chars := str2c (toString n)

/-- Python `isinstance(data, str)`. -/
def pyIsStr : CVal → Bool
  | .strv _ => true
  | _ => false

/-- Python `isinstance(data, Mapping)`. -/
def pyIsMapping : CVal → Bool
  | .dict _ => true
  | _ => false

/-- Python `isinstance(data, Iterable)`: strings, lists and dicts all are. -/
def pyIsIterable : CVal → Bool
  | .strv _ => true
  | .arr _ => true
  | .dict _ => true
  | _ => false

/-- Python `isinstance(data, Number)`: `bool` is a subclass of `int`, so a
boolean IS a `Number`. -/
def pyIsNumber : CVal → Bool
  | .num _ => true
  | .boolean _ => true
  | _ => false

/-- Python `isinstance(data, bool)`. -/
def pyIsBool : CVal → Bool
  | .boolean _ => true
  | _ => false

/-- The branches of `CSONWriter.write`. -/
inductive WBranch where
  | bstr | bdict | blist | bnum | bbool | bnull | berr
  deriving DecidableEq, Repr

/-- The `if/elif` dispatch chain of `CSONWriter.write`, in source order:
`str`, `Mapping`, `Iterable`, `Number`, `bool`, `None`, error. -/
def writeBranch (v : CVal) : WBranch :=
  if pyIsStr v then .bstr
  else if pyIsMapping v then .bdict
  else if pyIsIterable v then .blist
  else if pyIsNumber v then .bnum
  else if pyIsBool v then .bbool
  else .bnull

mutual

/-- `CSONWriter.write`: optional leading indent, the branch dispatched on
`writeBranch` (a boolean value reaches the `Number` branch and is written
through `write_num` as `str(b)`; the `bool` branch would call `write_bool`),
optional trailing newline. -/
def write (c : Ctx) (started ended : Bool) (v : CVal) : Chars :=
  writeRaw c [] started false ++
  (match writeBranch v, v with
   | .bstr, .strv s => writeStr c s
   | .bdict, .dict l => writeDict c l
   | .blist, .arr l => writeList c l
   | .bnum, .num n => writeNum c (pyStrInt n)
   | .bnum, .boolean b => writeNum c (pyStrBool b)
   | .bbool, .boolean b => writeBool c b
   | _, _ => writeRaw c (str2c "null") false false) ++
  writeRaw c [] false ended
  termination_by (sizeOf v, 2)

/-- `CSONWriter.write_dict`: a dict inside a list opens `\x7b` on its own
line and closes with an indented `\x7d`; a dict inside a dict starts on a
fresh line; entries are written one level deeper, the countdown `remaining`
deciding each value's trailing newline. -/
def writeDict (c : Ctx) (l : List (Chars × CVal)) : Chars :=
  (if c.par = .plist then writeRaw c (str2c "\x7b") false true
   else if c.par = .pdict then writeRaw c [] false true else []) ++
  writeDictEntries { c with level := c.level + 1, par := .pdict }
    (l.length + (if c.par = .plist then 1 else 0)) l ++
  (if c.par = .plist then writeRaw c (str2c "\x7d") true false else [])
  termination_by (sizeOf l, 1)

/-- The entry loop of `CSONWriter.write_dict`. -/
def writeDictEntries (c2 : Ctx) : Nat → List (Chars × CVal) → Chars
  | _, [] => []
  | remaining, (k, v) :: rest =>
    let r2 := remaining - 1
    writeRaw c2 ('"' :: k ++ str2c "\": ") true false ++
      write c2 false (r2 != 0) v ++ writeDictEntries c2 r2 rest
  termination_by _ l => (sizeOf l, 0)

/-- `CSONWriter.write_list`: opening `[` and its newline, elements one level
deeper, indented closing `]` without a newline. -/
def writeList (c : Ctx) (l : List CVal) : Chars :=
  writeRaw c (str2c "[") false true ++
  writeListElems { c with level := c.level + 1, par := .plist } l ++
  writeRaw c (str2c "]") true false
  termination_by (sizeOf l, 1)

/-- The element loop of `CSONWriter.write_list`. -/
def writeListElems (c2 : Ctx) : List CVal → Chars
  | [] => []
  | v :: rest => write c2 true true v ++ writeListElems c2 rest
  termination_by l => (sizeOf l, 0)

end

/-- `cson.dump(obj, file, indent, level)`. -/
def dump (obj : CVal) (indent : Nat) (level : Int) : Chars :=
  write ⟨indent, level, .top⟩ false true obj

/-! ### Concrete inputs used by the theorems below -/

/-- Spec §8's insertion-shaped macro text (one-character-back suffix). -/
def macroFrac : Chars :=
  str2c "BeginGroup;Backspace(3);Ins('\\frac\x7b$1\x7d\x7b$2\x7d');CharLeft;EndGroup;"

/-- A two-parameter insertion-shaped macro text over the literal `abcde`
with `CharLeft;CharLeft(2);`. -/
def macroTwoParam : Chars :=
  str2c "BeginGroup;Backspace(5);Ins('abcde');CharLeft;CharLeft(2);EndGroup;"

/-- A template-shaped macro text (zero-parameter shape) for identifier `TRIG`. -/
def macroTemplate : Chars :=
  str2c "Assign('FasTeX','TRIG');Exe('%b\\Macros\\Active Strings\\FasTeX\\FasTeX_Templates.edt');"

/-- A four-line `.ini` block carrying `macroTemplate`. -/
def iniBlockTemplate : List Chars :=
  [str2c "STRING=\"abc  \"\n", str2c "!\n", str2c "!\n",
   str2c "  MACRO=\"[Assign('FasTeX','TRIG');Exe('%b\\Macros\\Active Strings\\FasTeX\\FasTeX_Templates.edt');]\"\n"]

/-- The value `\x7b"a": [1, "x\ny"]\x7d` of spec §8's serializer example. -/
def csonExample : CVal :=
  .dict [(str2c "a", .arr [.num 1, .strv (str2c "x\ny")])]

/-- A single-line snippet whose body is one backslash (no tab-stop markers). -/
def snipBackslash : Snippet :=
  ⟨str2c "t", .str (str2c "\\"), "any", str2c "d"⟩

/-- Property of claim C2's hypothesis on one line: no backslash, no double
quote, and no `$`-digit pair (hence no tab-stop marker). -/
def hasDollarDigit : Chars → Bool
  | c :: d :: rest => (c = '$' && d.isDigit) || hasDollarDigit (d :: rest)
  | _ => false

/-- A line free of backslashes, double quotes and `$`-digit pairs. -/
def cleanStr (s : Chars) : Bool :=
  !s.contains '\\' && !s.contains '"' && !hasDollarDigit s

/-- A body all of whose lines are clean. -/
def cleanBody : Body → Bool
  | .str s => cleanStr s
  | .arr l => l.all cleanStr

/-- The static decoration of the Atom body conversion on a marker-free
clean body: the multi-line join only. -/
def atomStaticDecor : Body → Chars
  | .str s => s
  | .arr l => List.intercalate ['\n'] l

/-- The static decoration of the live body conversion on a marker-free
clean body: the prepended `$1` stop and the `\n`-escape join only. -/
def liveStaticDecor : Body → Chars
  | .str s => str2c "$1" ++ s
  | .arr l => List.intercalate (str2c "\\n") (str2c "$1" :: l)

/-- A string with no `\$` pair (claim C8's hypothesis). -/
def hasBSDollar : Chars → Bool
  | '\\' :: '$' :: _ => true
  | _ :: rest => hasBSDollar rest
  | [] => false

/-- The keys `apply_options` knows. -/
def knownOptionKeys : List String :=
  ["multiline", "singleline", "textmaths", "dollarfix", "modern"]

/-- The keyword entries `apply_options` would leave in the dict after its
five pops — the unknown options. -/
def unknownOptions (kwds : List (String × Bool)) : List (String × Bool) :=
  kwds.filter (fun kv => ¬ kv.1 ∈ knownOptionKeys)

/-- The tab-stop marker `$n` of claim C4: the dollar sigil followed by the
decimal digits of `maxtab`. -/
def vscMarker (n : Nat) : Chars := '$' :: str2c (toString n)

/-- Occurrence test of the amended claim C4, written from the claim's words
rather than from the source: the pattern `[^\\]\$n` occurs at index `i` of
`s` when the character at `i` is not a backslash and the marker starts at
`i + 1` — a marker at the very start of the body has no preceding
character, so no index points at it. -/
def vscMatchAt (n : Nat) (s : Chars) (i : Nat) : Bool :=
  match s.drop i with
  | c :: rest => (c ≠ '\\') && (vscMarker n).isPrefixOf rest
  | [] => false

/-- Index of the leftmost occurrence of `[^\\]\$n` in `s` (spec side). -/
def vscMatchIdx (n : Nat) (s : Chars) : Option Nat :=
  (List.range s.length).find? (vscMatchAt n s)

/-- The rewrite of the amended claim C4, written from the claim's words, to
be compared with the source-derived `subVsc`: replace the leftmost
occurrence of a non-backslash character followed by `$n` — the preceding
character included — by `$0`, and resume scanning after the replaced span;
`fuel` only drives termination (`s.length` always suffices, as each step
removes at least two characters). -/
def subVscSpec (n : Nat) : Nat → Chars → Chars
  | 0, s => s
  | fuel + 1, s =>
    match vscMatchIdx n s with
    | none => s
    | some i =>
      s.take i ++ str2c "$0" ++
        subVscSpec n fuel (s.drop (i + 2 + (str2c (toString n)).length))

/-! ### Helper lemmas -/

theorem flatMap_if_eq_id (x : Char) (y : Chars) :
    ∀ s : Chars, x ∉ s → s.flatMap (fun c => if c = x then y else [c]) = s := by
  intro s hs
  induction s with
  | nil => rfl
  | cons c rest ih =>
    simp only [List.mem_cons, not_or] at hs
    rw [List.flatMap_cons, if_neg (fun h => hs.1 h.symm), ih hs.2]
    rfl

theorem hasDollarDigit_cons (c : Char) (rest : Chars)
    (h : hasDollarDigit (c :: rest) = false) : hasDollarDigit rest = false := by
  cases rest with
  | nil => rfl
  | cons d t =>
    simp only [hasDollarDigit, Bool.or_eq_false_iff] at h
    exact h.2

theorem noMark_of_hasDollarDigit_false (c d : Char) (t : Chars)
    (h : hasDollarDigit (c :: d :: t) = false) : ¬ (c = '$' ∧ d.isDigit = true) := by
  intro hc
  simp only [hasDollarDigit, hc.1, hc.2, Bool.or_eq_false_iff] at h
  simp at h

theorem findTabStops_eq_nil :
    ∀ (prevBS : Bool) (s : Chars), hasDollarDigit s = false →
      findTabStops prevBS s = [] := by
  intro prevBS s
  induction prevBS, s using findTabStops.induct with
  | case1 prevBS c d rest hcond ih =>
    intro h
    exact absurd ⟨hcond.1, hcond.2.1⟩ (noMark_of_hasDollarDigit_false c d rest h)
  | case2 prevBS c d rest hcond ih =>
    intro h
    rw [findTabStops, if_neg hcond]
    exact ih (hasDollarDigit_cons c (d :: rest) h)
  | case3 t prevBS hne =>
    intro _
    match t, hne with
    | [], _ => rfl
    | [c], _ => rfl
    | c :: d :: r, hne => exact absurd rfl (hne c d r)

theorem maxListD_nil : maxListD [] = 0 := rfl

theorem count_tabs_eq_zero (b : Body) (h : cleanBody b = true) : count_tabs b = 0 := by
  cases b with
  | str s =>
    simp only [cleanBody, cleanStr, Bool.and_eq_true, Bool.not_eq_true'] at h
    rw [count_tabs, findTabStops_eq_nil false s h.2, maxListD_nil]
  | arr l =>
    simp only [cleanBody, List.all_eq_true] at h
    rw [count_tabs]
    have hm : l.map (fun s => maxListD (findTabStops false s)) = l.map (fun _ => 0) := by
      apply List.map_congr_left
      intro x hx
      have hc := h x hx
      simp only [cleanStr, Bool.and_eq_true, Bool.not_eq_true'] at hc
      rw [findTabStops_eq_nil false x hc.2, maxListD_nil]
    rw [hm]
    induction l with
    | nil => rfl
    | cons _ t ih =>
      simp only [List.map_cons, maxListD, List.foldr_cons, Nat.zero_max]
      exact ih (fun x hx => h x (List.mem_cons_of_mem _ hx))
        (List.map_congr_left fun x hx => by
          have hc := h x (List.mem_cons_of_mem _ hx)
          simp only [cleanStr, Bool.and_eq_true, Bool.not_eq_true'] at hc
          rw [findTabStops_eq_nil false x hc.2, maxListD_nil])

theorem subTabDouble_id :
    ∀ (prevBS : Bool) (s : Chars), hasDollarDigit s = false →
      subTabDouble prevBS s = s := by
  intro prevBS s
  induction prevBS, s using subTabDouble.induct with
  | case1 prevBS c d rest hcond ih =>
    intro h
    exact absurd ⟨hcond.1, hcond.2.1⟩ (noMark_of_hasDollarDigit_false c d rest h)
  | case2 prevBS c d rest hcond ih =>
    intro h
    rw [subTabDouble, if_neg hcond, ih (hasDollarDigit_cons c (d :: rest) h)]
  | case3 => intro _; rfl
  | case4 => intro _; rfl

theorem replaceBSDollar_id : ∀ s : Chars, '\\' ∉ s → replaceBSDollar s = s := by
  intro s
  induction s using replaceBSDollar.induct with
  | case1 rest ih =>
    intro h
    exact absurd (List.mem_cons_self _ _) h
  | case2 c rest hne ih =>
    intro h
    simp only [List.mem_cons, not_or] at h
    rw [replaceBSDollar]
    · rw [ih h.2]
    · intro r hr
      rw [hr] at h
      exact absurd rfl h.1
  | case3 => intro _; rfl

theorem replaceBSDollarOne_id : ∀ s : Chars, '\\' ∉ s → replaceBSDollarOne s = s := by
  intro s
  induction s using replaceBSDollarOne.induct with
  | case1 rest ih =>
    intro h
    exact absurd (List.mem_cons_self _ _) h
  | case2 c rest hne ih =>
    intro h
    simp only [List.mem_cons, not_or] at h
    rw [replaceBSDollarOne]
    · rw [ih h.2]
    · intro r hr
      rw [hr] at h
      exact absurd rfl h.1
  | case3 => intro _; rfl

theorem subVsc_id_noDollar (n : Nat) : ∀ s : Chars, '$' ∉ s → subVsc n s = s := by
  intro s
  induction s using subVsc.induct n with
  | case1 => intro _; rw [subVsc]
  | case2 c rest hcond ih =>
    intro h
    simp only [List.mem_cons, not_or] at h
    exfalso
    rcases List.isPrefixOf_iff_prefix.mp hcond.2 with ⟨t, ht⟩
    have : '$' ∈ rest := by
      rw [← ht]
      simp
    exact h.2 this
  | case3 c rest hcond ih =>
    intro h
    simp only [List.mem_cons, not_or] at h
    rw [subVsc, if_neg hcond, ih h.2]

theorem subVsc_zero_id : ∀ s : Chars, hasDollarDigit s = false → subVsc 0 s = s := by
  intro s
  induction s using subVsc.induct 0 with
  | case1 => intro _; rw [subVsc]
  | case2 c rest hcond ih =>
    intro h
    exfalso
    rcases List.isPrefixOf_iff_prefix.mp hcond.2 with ⟨t, ht⟩
    have hr : rest = '$' :: '0' :: t := by
      simpa using ht.symm
    rw [hr] at h
    have := hasDollarDigit_cons c ('$' :: '0' :: t) h
    simp [hasDollarDigit] at this
  | case3 c rest hcond ih =>
    intro h
    rw [subVsc, if_neg hcond, ih (hasDollarDigit_cons c rest h)]

theorem help_body_atom_id (s : Chars) (h1 : '\\' ∉ s) (h2 : '"' ∉ s) :
    help_body_atom s = s := by
  rw [help_body_atom, flatMap_if_eq_id '\\' _ s h1, flatMap_if_eq_id '"' _ s h2]

theorem help_body_live_id (s : Chars) (endtab : Bool) (h : cleanStr s = true) :
    help_body_live s endtab 0 = s := by
  simp only [cleanStr, Bool.and_eq_true, Bool.not_eq_true'] at h
  have hbs : '\\' ∉ s := by
    intro hm
    rw [← List.elem_iff] at hm
    have hc : s.contains '\\' = true := by simpa [List.contains] using hm
    exact absurd h.1.1 (by rw [hc]; simp)
  rw [help_body_live]
  have hsub : (if endtab = false ∨ 0 ≠ 0 then subVsc 0 s else s) = s := by
    split
    · exact subVsc_zero_id s h.2
    · rfl
  rw [hsub, subTabDouble_id false s h.2, replaceBSDollarOne_id s hbs,
    replaceBSDollar_id s hbs]

theorem convert_body_vsc_id (b : Body) (endtab : Bool) (maxtab : Nat)
    (h : endtab = true ∨ maxtab = 0) : convert_body_vsc b endtab maxtab = b := by
  cases b with
  | str s => rw [convert_body_vsc, convert_body_vsc_str, if_pos h]
  | arr l =>
    rw [convert_body_vsc]
    congr 1
    have : ∀ x ∈ l, convert_body_vsc_str x endtab maxtab = id x := by
      intro x _
      rw [convert_body_vsc_str, if_pos h]
      rfl
    rw [List.map_congr_left this, List.map_id]

theorem cleanStr_parts (s : Chars) (h : cleanStr s = true) :
    '\\' ∉ s ∧ '"' ∉ s ∧ hasDollarDigit s = false := by
  simp only [cleanStr, Bool.and_eq_true, Bool.not_eq_true'] at h
  refine ⟨?_, ?_, h.2⟩
  · intro hm
    rw [← List.elem_iff] at hm
    have hc : s.contains '\\' = true := by simpa [List.contains] using hm
    exact absurd h.1.1 (by rw [hc]; simp)
  · intro hm
    rw [← List.elem_iff] at hm
    have hc : s.contains '"' = true := by simpa [List.contains] using hm
    exact absurd h.1.2 (by rw [hc]; simp)

/-- Claim C2 (amended): for a body whose lines contain no tab-stop markers
AND no backslashes or double quotes, the three body conversions return the
body unmodified apart from their static decorations (the trigger decoration
is separate, the live conversion prepends its `$1` stop, list bodies are
joined — with a real newline for Atom, with the characters `\n` for live).
The original claim fails without the backslash/quote restriction because
the Atom helper escapes backslashes and quotes and the live helper
unescapes `\$`; see the counterexample. -/
theorem c2_converters_static_decorations_only :
    ∀ (sn : Snippet) (pre sfx : Chars) (endtab : Bool),
      cleanBody sn.body = true →
      (convert_one_vsc sn pre sfx endtab).body = sn.body ∧
      (convert_one_atom sn pre sfx endtab).body = atomStaticDecor sn.body ∧
      (convert_one_live sn pre sfx endtab).body = liveStaticDecor sn.body := by
  intro sn pre sfx endtab h
  have hmax : (if endtab = true then 0 else count_tabs sn.body) = 0 := by
    split
    · rfl
    · exact count_tabs_eq_zero sn.body h
  refine ⟨?_, ?_, ?_⟩
  · rw [convert_one_vsc]
    simp only
    rw [hmax, convert_body_vsc_id sn.body endtab 0 (Or.inr rfl)]
  · rw [convert_one_atom]
    simp only
    rw [hmax, convert_body_atom]
    have hcond : ¬ (endtab = true ∧ (0 : Nat) ≠ 0) := by
      intro hc
      exact hc.2 rfl
    rw [if_neg hcond]
    cases hb : sn.body with
    | str s =>
      rw [hb] at h
      have hp := cleanStr_parts s h
      simp only [atomStaticDecor]
      exact help_body_atom_id s hp.1 hp.2.1
    | arr l =>
      rw [hb] at h
      simp only [cleanBody, List.all_eq_true] at h
      simp only [atomStaticDecor]
      congr 1
      have : ∀ x ∈ l, help_body_atom x = id x := by
        intro x hx
        have hp := cleanStr_parts x (h x hx)
        rw [help_body_atom_id x hp.1 hp.2.1]
        rfl
      rw [List.map_congr_left this, List.map_id]
  · cases hb : sn.body with
    | str s =>
      rw [hb] at h hmax
      rw [convert_one_live]
      simp only [hb]
      rw [hmax, convert_body_live_rw, liveStaticDecor]
      rw [help_body_live_id s endtab (by simpa [cleanBody] using h)]
    | arr l =>
      rw [hb] at h hmax
      simp only [cleanBody, List.all_eq_true] at h
      rw [convert_one_live]
      simp only [hb]
      rw [hmax, convert_body_live_rw, liveStaticDecor]
      congr 2
      have : ∀ x ∈ l, help_body_live x endtab 0 = id x := by
        intro x hx
        rw [help_body_live_id x endtab (h x hx)]
        rfl
      rw [List.map_congr_left this, List.map_id]

/-- Witness for C2 (amended) at a concrete two-line clean snippet. -/
theorem c2_witness :
    (convert_one_vsc ⟨str2c "t", .arr [str2c "alpha", str2c "beta"], "text", str2c "d"⟩
        (str2c ";") (str2c "  ") false).body = .arr [str2c "alpha", str2c "beta"] ∧
    (convert_one_atom ⟨str2c "t", .arr [str2c "alpha", str2c "beta"], "text", str2c "d"⟩
        (str2c ";") (str2c "  ") false).body = atomStaticDecor (.arr [str2c "alpha", str2c "beta"]) ∧
    (convert_one_live ⟨str2c "t", .arr [str2c "alpha", str2c "beta"], "text", str2c "d"⟩
        (str2c ";") (str2c "  ") false).body = liveStaticDecor (.arr [str2c "alpha", str2c "beta"]) :=
  c2_converters_static_decorations_only
    ⟨str2c "t", .arr [str2c "alpha", str2c "beta"], "text", str2c "d"⟩
    (str2c ";") (str2c "  ") false (by decide)

/-- Counterexample to claim C2 as stated: the body `\` (one backslash)
contains no tab-stop marker, yet the Atom conversion turns it into four
backslashes rather than returning it unmodified. -/
theorem c2_counterexample :
    hasDollarDigit (str2c "\\") = false ∧
    (convert_one_atom snipBackslash [] [] true).body = str2c "\\\\\\\\" ∧
    ¬ (convert_one_atom snipBackslash [] [] true).body = atomStaticDecor snipBackslash.body := by
  decide

/-- Claim C3 (code bug in `src/code/write_snippets.py`): that file's
`convert_body_live` uses the non-raw replacement literal `'$$\1'`, whose
`\1` is the octal escape for the control character `U+0001`, not a group
backreference; so `a$2` becomes `$1a$$` followed by `U+0001` — the digit is
lost — contradicting the function's own docstring (`$$1`,...,`$$n`).  The
later implementation `_help_body_live` in `src/readwrite/write_snippets.py`
uses `'$$\\1'` and doubles the sigil as documented, keeping the digit. -/
theorem c3_convert_body_live_drops_digit :
    convert_body_live (str2c "a$2") true 0 = str2c "$1a$$" ++ [Char.ofNat 1] ∧
    ¬ convert_body_live (str2c "a$2") true 0 = str2c "$1a$$2" ∧
    convert_body_live_rw (.str (str2c "a$2")) true 0 = str2c "$1a$$2" := by
  decide

/-- Claim C6: the macro text
`BeginGroup;Backspace(3);Ins('\frac\x7b$1\x7d\x7b$2\x7d');CharLeft;EndGroup;`
matches the one-character-back insertion pattern `INSERT_ONE` (ordered index
1, so `INSERT_ZERO` did not match and the later patterns were not reached),
it does not match any template pattern, and the resulting body is the
escaped literal text `\frac\x7b\$1\x7d\x7b\$2\x7d` with the `$1` tab-stop
marker inserted immediately before its final character. -/
theorem c6_frac_macro_insert :
    matchTemplates macroFrac = none ∧
    matchInserts macroFrac = some (str2c "\\frac\x7b$1\x7d\x7b$2\x7d", 1, none) ∧
    escape_body_str (str2c "\\frac\x7b$1\x7d\x7b$2\x7d") = str2c "\\frac\x7b\\$1\x7d\x7b\\$2\x7d" ∧
    get_macro_insert macroFrac =
      some (pySliceToNeg 1 (str2c "\\frac\x7b\\$1\x7d\x7b\\$2\x7d") ++ str2c "$1" ++
        pySliceFromNeg 1 (str2c "\\frac\x7b\\$1\x7d\x7b\\$2\x7d")) ∧
    get_macro_insert macroFrac = some (str2c "\\frac\x7b\\$1\x7d\x7b\\$2$1\x7d") := by
  decide

/-- Counterexample to claim C5 as stated: on the two-parameter macro over
the escaped literal `abcde` with `d = 2`, the result is `ab$1c$2e` — the
`$1` marker sits `d+1 = 3` characters from the end of the escaped text, but
only ONE trailing character (`d`, the second-to-last, the bullet artifact)
is removed: the final character `e` survives, and the length is
`5 + 2 + 2 - 1 = 8`, not the `5 + 2 + 2 - 2 = 7` that removing exactly two
trailing characters while splicing `$2` would give. -/
theorem c5_counterexample :
    get_macro_insert macroTwoParam = some (str2c "ab$1c$2e") ∧
    (str2c "ab$1c$2e").length = 8 ∧
    ¬ (str2c "ab$1c$2e").length = (str2c "abcde").length + 2 + 2 - 2 ∧
    (str2c "ab$1c$2e").getLast? = some 'e' := by
  decide

/-- Counterexample to claim C4 as stated: with body `x$1`, `maxtab = 1` and
`endtab = False`, the rewrite pattern `[^\\]\$1` consumes the character `x`
preceding the marker and the replacement `$0` does not restore it, so the
result is `$0`, not the `x$0` the claim's character-preservation part
predicts. -/
theorem c4_counterexample :
    convert_body_vsc (.str (str2c "x$1")) false 1 = .str (str2c "$0") ∧
    ¬ convert_body_vsc (.str (str2c "x$1")) false 1 = .str (str2c "x$0") := by
  have e1 : str2c "x$1" = 'x' :: '$' :: '1' :: [] := by decide
  have h : subVsc 1 ('x' :: '$' :: '1' :: []) = str2c "$0" := by
    simp [subVsc, show str2c (toString 1) = ['1'] from rfl]
    decide
  constructor
  · rw [convert_body_vsc, convert_body_vsc_str, if_neg (by decide), e1, h]
  · intro hc
    rw [convert_body_vsc, convert_body_vsc_str, if_neg (by decide), e1, h] at hc
    exact absurd (Body.str.inj hc) (by decide)

theorem isPrefixOf_false_of_lt (p l : Chars) (h : l.length < p.length) :
    p.isPrefixOf l = false := by
  rw [Bool.eq_false_iff]
  intro hp
  exact absurd (List.IsPrefix.length_le (List.isPrefixOf_iff_prefix.mp hp)) (by omega)

theorem vscMatchIdx_nil (n : Nat) : vscMatchIdx n [] = none := rfl

theorem vscMatchIdx_cons (n : Nat) (c : Char) (rest : Chars) :
    vscMatchIdx n (c :: rest) =
      if vscMatchAt n (c :: rest) 0 = true then some 0
      else (vscMatchIdx n rest).map (· + 1) := by
  rw [vscMatchIdx, List.length_cons, List.range_succ_eq_map, List.find?_cons]
  cases h0 : vscMatchAt n (c :: rest) 0 with
  | true => simp [h0]
  | false =>
    rw [if_neg (by simp [h0])]
    rw [List.find?_map]
    have hcomp : vscMatchAt n (c :: rest) ∘ Nat.succ = vscMatchAt n rest := by
      funext i
      show vscMatchAt n (c :: rest) (i + 1) = vscMatchAt n rest i
      rw [vscMatchAt, vscMatchAt, List.drop_succ_cons]
    rw [hcomp, vscMatchIdx]

theorem subVscSpec_eq_subVsc (n : Nat) :
    ∀ (k : Nat) (s : Chars), s.length ≤ k → ∀ (fuel : Nat), s.length ≤ fuel →
      subVscSpec n fuel s = subVsc n s := by
  intro k
  induction k with
  | zero =>
    intro s hs fuel _
    have hnil : s = [] := List.eq_nil_of_length_eq_zero (Nat.le_zero.mp hs)
    subst hnil
    cases fuel with
    | zero => rw [subVscSpec, subVsc]
    | succ f => rw [subVscSpec, vscMatchIdx_nil, subVsc]
  | succ k ih =>
    intro s hs fuel hf
    cases s with
    | nil =>
      cases fuel with
      | zero => rw [subVscSpec, subVsc]
      | succ f => rw [subVscSpec, vscMatchIdx_nil, subVsc]
    | cons c rest =>
      cases fuel with
      | zero => exact absurd hf (by simp)
      | succ f =>
        have hsr : rest.length ≤ k := by
          simp only [List.length_cons] at hs
          omega
        have hfr : rest.length ≤ f + 1 := by
          simp only [List.length_cons] at hf
          omega
        rw [subVscSpec, vscMatchIdx_cons]
        by_cases h0 : vscMatchAt n (c :: rest) 0 = true
        · rw [if_pos h0]
          have hb : ((c ≠ '\\') && (vscMarker n).isPrefixOf rest) = true := h0
          simp only [Bool.and_eq_true, decide_eq_true_eq] at hb
          rw [subVsc, if_pos ⟨hb.1, hb.2⟩]
          have hdrop : (c :: rest).drop (0 + 2 + (str2c (toString n)).length) =
              rest.drop (1 + (str2c (toString n)).length) := by
            have he : 0 + 2 + (str2c (toString n)).length =
                (1 + (str2c (toString n)).length) + 1 := by omega
            rw [he, List.drop_succ_cons]
          have hlen : (rest.drop (1 + (str2c (toString n)).length)).length ≤ k := by
            simp only [List.length_drop]
            omega
          have hflen : (rest.drop (1 + (str2c (toString n)).length)).length ≤ f := by
            simp only [List.length_drop, List.length_cons] at hf ⊢
            omega
          show List.take 0 (c :: rest) ++ str2c "$0" ++
              subVscSpec n f ((c :: rest).drop (0 + 2 + (str2c (toString n)).length)) =
            '$' :: '0' :: subVsc n (rest.drop (1 + (str2c (toString n)).length))
          rw [List.take_zero, hdrop, ih _ hlen f hflen]
          rfl
        · rw [if_neg h0]
          have hcnd : ¬ (c ≠ '\\' ∧ ('$' :: str2c (toString n)).isPrefixOf rest) := by
            intro hc
            apply h0
            show ((c ≠ '\\') && (vscMarker n).isPrefixOf rest) = true
            simp only [Bool.and_eq_true, decide_eq_true_eq, vscMarker]
            exact ⟨hc.1, hc.2⟩
          rw [subVsc, if_neg hcnd]
          have hrest : subVscSpec n (f + 1) rest = subVsc n rest := ih rest hsr (f + 1) hfr
          cases hidx : vscMatchIdx n rest with
          | none =>
            rw [← hrest, subVscSpec, hidx]
            simp [hidx]
          | some i =>
            rw [← hrest, subVscSpec, hidx]
            simp only [hidx, Option.map_some']
            have hdrop : (c :: rest).drop (i + 1 + 2 + (str2c (toString n)).length) =
                rest.drop (i + 2 + (str2c (toString n)).length) := by
              have he : i + 1 + 2 + (str2c (toString n)).length =
                  (i + 2 + (str2c (toString n)).length) + 1 := by omega
              rw [he, List.drop_succ_cons]
            rw [List.take_succ_cons, hdrop]
            simp [List.cons_append]

theorem subVsc_id_of_short (n : Nat) :
    ∀ (s : Chars), s.length ≤ (vscMarker n).length → subVsc n s = s := by
  intro s
  induction s using subVsc.induct n with
  | case1 => intro _; rw [subVsc]
  | case2 c rest hcond ih =>
    intro h
    have hlt : rest.length < ('$' :: str2c (toString n)).length := by
      simp only [vscMarker, List.length_cons] at h ⊢
      omega
    have := hcond.2
    rw [isPrefixOf_false_of_lt _ _ hlt] at this
    exact absurd this (by simp)
  | case3 c rest hcond ih =>
    intro h
    rw [subVsc, if_neg hcond, ih ?_]
    simp only [vscMarker, List.length_cons] at h ⊢
    omega

/-- Claim C4 (amended): with `endtab = True` the body passes through
unchanged, and with `endtab = False` the rewrite replaces — for EVERY
single-line body — each occurrence of a non-backslash character followed by
an unescaped `$n` marker TOGETHER WITH that character: the match `[^\\]\$n`
is replaced wholesale by `$0`, scanning left to right and resuming after
each replaced span (formalised by `subVscSpec`, a second definition written
from the claim's words and proved equal to the source-derived scan for all
bodies), so the character immediately preceding the marker is consumed, not
preserved; a body with no occurrence is returned unchanged, and a marker at
the very start of the body has no preceding character, is never an
occurrence, and is left unchanged — the original claim's preservation part
is what fails, see the counterexample. -/
theorem c4_convert_body_vsc :
    ∀ (n : Nat) (b : Chars),
      1 ≤ n →
      convert_body_vsc (.str b) false n = .str (subVscSpec n b.length b) ∧
      convert_body_vsc (.str b) true n = .str b ∧
      (vscMatchIdx n b = none → convert_body_vsc (.str b) false n = .str b) ∧
      convert_body_vsc (.str (vscMarker n)) false n = .str (vscMarker n) := by
  intro n b hn
  have hne : ¬ (false = true ∨ n = 0) := by
    simp only [Bool.false_eq_true, false_or]
    omega
  have hmain : subVscSpec n b.length b = subVsc n b :=
    subVscSpec_eq_subVsc n b.length b (le_refl _) b.length (le_refl _)
  refine ⟨?_, ?_, ?_, ?_⟩
  · rw [convert_body_vsc, convert_body_vsc_str, if_neg hne, hmain]
  · rw [convert_body_vsc, convert_body_vsc_str, if_pos (Or.inl rfl)]
  · intro hnone
    rw [convert_body_vsc, convert_body_vsc_str, if_neg hne, ← hmain]
    cases b with
    | nil =>
      simp only [List.length_nil]
      rw [subVscSpec]
    | cons c rest =>
      simp only [List.length_cons]
      rw [subVscSpec, hnone]
  · rw [convert_body_vsc, convert_body_vsc_str, if_neg hne,
      subVsc_id_of_short n (vscMarker n) (le_refl _)]

/-- Witness for C4 (amended) at `n = 1`: a body with two markers and an
escaped `\$1` (both markers rewritten, preceding characters consumed, the
escaped one kept), the pass-through body `q$1` with `endtab = True`, the
occurrence-free body `\$1`, and the bare marker `$1` at the very start. -/
theorem c4_witness :
    convert_body_vsc (.str (str2c "x$1a$1\\$1")) false 1 =
      .str (subVscSpec 1 (str2c "x$1a$1\\$1").length (str2c "x$1a$1\\$1")) ∧
    subVscSpec 1 (str2c "x$1a$1\\$1").length (str2c "x$1a$1\\$1") = str2c "$0$0\\$1" ∧
    convert_body_vsc (.str (str2c "q$1")) true 1 = .str (str2c "q$1") ∧
    convert_body_vsc (.str (str2c "\\$1")) false 1 = .str (str2c "\\$1") ∧
    convert_body_vsc (.str (vscMarker 1)) false 1 = .str (vscMarker 1) :=
  ⟨(c4_convert_body_vsc 1 (str2c "x$1a$1\\$1") (by decide)).1,
   by decide,
   (c4_convert_body_vsc 1 (str2c "q$1") (by decide)).2.1,
   (c4_convert_body_vsc 1 (str2c "\\$1") (by decide)).2.2.1 (by decide),
   (c4_convert_body_vsc 1 (vscMarker 1) (by decide)).2.2.2⟩

/-- Claim C5 (amended): on a two-parameter insertion match with digit `d`,
the `$1` marker is spliced `d+1` characters from the end of the escaped
literal text, and then exactly ONE trailing character — the second-to-last
one, the editor's auto-inserted bullet artifact — is removed while the
`$2` marker is spliced in immediately before the (kept) final character.
(Writing the escaped text as `u ++ m ++ [y, z]` with `m.length = d - 1`:
the bullet `y` is dropped, the final `z` survives; the original claim's
"removes exactly two trailing characters" fails, see the counterexample.) -/
theorem c5_two_param_splice :
    ∀ (mac mid u m : Chars) (y z : Char) (d : Nat),
      matchInserts mac = some (mid, 3, some d) →
      escape_body_str mid = u ++ m ++ [y, z] →
      m.length = d - 1 → 1 ≤ d →
      get_macro_insert mac = some (u ++ str2c "$1" ++ m ++ str2c "$2" ++ [z]) := by
  intro mac mid u m y z d hmatch he hm hd
  rw [get_macro_insert, hmatch]
  simp only [show (3 : Nat) ≠ 0 from by omega, show (3 : Nat) ≠ 1 from by omega,
    show (3 : Nat) ≠ 2 from by omega, if_neg, if_false, reduceIte]
  rw [he]
  have h1 : pySliceToNeg (d + 1) (u ++ m ++ [y, z]) = u := by
    rw [pySliceToNeg, if_neg (by omega)]
    have hl : (u ++ m ++ [y, z]).length - (d + 1) = u.length := by
      simp only [List.length_append, List.length_cons, List.length_nil]
      omega
    rw [hl, List.append_assoc]
    exact List.take_left' rfl
  have h2 : pySliceFromNeg (d + 1) (u ++ m ++ [y, z]) = m ++ [y, z] := by
    rw [pySliceFromNeg, if_neg (by omega)]
    have hl : (u ++ m ++ [y, z]).length - (d + 1) = u.length := by
      simp only [List.length_append, List.length_cons, List.length_nil]
      omega
    rw [hl, List.append_assoc]
    exact List.drop_left' rfl
  rw [h1, h2]
  have hsplit : u ++ str2c "$1" ++ (m ++ [y, z]) =
      (u ++ str2c "$1" ++ m ++ [y]) ++ [z] := by
    simp [List.append_assoc]
  have h3 : pySliceToNeg 2 (u ++ str2c "$1" ++ (m ++ [y, z])) = u ++ str2c "$1" ++ m := by
    rw [pySliceToNeg, if_neg (by omega), hsplit]
    have hl : ((u ++ str2c "$1" ++ m ++ [y]) ++ [z]).length - 2 =
        (u ++ str2c "$1" ++ m).length := by
      simp only [List.length_append, List.length_cons, List.length_nil]
      omega
    rw [hl]
    have : (u ++ str2c "$1" ++ m ++ [y]) ++ [z] = (u ++ str2c "$1" ++ m) ++ ([y] ++ [z]) := by
      simp [List.append_assoc]
    rw [this]
    exact List.take_left' rfl
  have h4 : pySliceFromNeg 1 (u ++ str2c "$1" ++ (m ++ [y, z])) = [z] := by
    rw [pySliceFromNeg, if_neg (by omega), hsplit]
    have hl : ((u ++ str2c "$1" ++ m ++ [y]) ++ [z]).length - 1 =
        (u ++ str2c "$1" ++ m ++ [y]).length := by
      simp only [List.length_append, List.length_cons, List.length_nil]
      omega
    rw [hl]
    exact List.drop_left' rfl
  rw [h3, h4]
  try simp [List.append_assoc]

/-- Witness for C5 (amended) at the concrete macro `macroTwoParam`
(`u = "ab"`, `m = "c"`, `y = 'd'`, `z = 'e'`, `d = 2`). -/
theorem c5_witness :
    get_macro_insert macroTwoParam =
      some (str2c "ab" ++ str2c "$1" ++ str2c "c" ++ str2c "$2" ++ ['e']) :=
  c5_two_param_splice macroTwoParam (str2c "abcde") (str2c "ab") (str2c "c") 'd' 'e' 2
    (by decide) (by decide) (by decide) (by decide)

theorem escape_body_str_nil : escape_body_str [] = [] := rfl

theorem escape_body_str_dollar (r : Chars) :
    escape_body_str ('$' :: r) = '\\' :: '$' :: escape_body_str r := by
  simp [escape_body_str]

theorem escape_body_str_other (c : Char) (hc : c ≠ '$') (r : Chars) :
    escape_body_str (c :: r) = c :: escape_body_str r := by
  simp [escape_body_str, hc]

theorem subTabStopDel_bs (count : Nat) (prevBS : Bool) (rest : Chars) :
    subTabStopDel count prevBS ('\\' :: '$' :: rest) =
      '\\' :: subTabStopDel count true ('$' :: rest) := by
  rw [subTabStopDel, if_neg]
  · simp
  · intro hcond
    exact absurd hcond.1 (by decide)

theorem subTabStopDel_dollar_protected (count : Nat) (rest : Chars) :
    subTabStopDel count true ('$' :: rest) = '$' :: subTabStopDel count false rest := by
  cases rest with
  | nil => rfl
  | cons d t =>
    rw [subTabStopDel, if_neg]
    · simp
    · intro hcond
      exact absurd hcond.2.2.1 (by decide)

theorem subTabStopDel_nondollar (count : Nat) (prevBS : Bool) (c : Char)
    (hc : c ≠ '$') (rest : Chars) :
    subTabStopDel count prevBS (c :: rest) = c :: subTabStopDel count (c = '\\') rest := by
  cases rest with
  | nil =>
    cases hd : decide (c = '\\') <;> rfl
  | cons d t =>
    rw [subTabStopDel, if_neg]
    intro hcond
    exact hc hcond.1

theorem subTabStopDel_escape (s : Chars) :
    ∀ (count : Nat) (prevBS : Bool),
      subTabStopDel count prevBS (escape_body_str s) = escape_body_str s := by
  induction s with
  | nil => intro count prevBS; rfl
  | cons c r ih =>
    intro count prevBS
    by_cases hc : c = '$'
    · subst hc
      rw [escape_body_str_dollar, subTabStopDel_bs, subTabStopDel_dollar_protected, ih]
    · rw [escape_body_str_other c hc, subTabStopDel_nondollar count prevBS c hc, ih]

theorem hasBSDollar_tail (c : Char) (r : Chars) (h : hasBSDollar (c :: r) = false) :
    hasBSDollar r = false := by
  cases r with
  | nil => rfl
  | cons d t =>
    by_cases hb : c = '\\' ∧ d = '$'
    · rw [hb.1, hb.2] at h
      exact absurd h (by rw [hasBSDollar]; simp)
    · rw [hasBSDollar] at h
      · exact h
      · intro r' hc' h2
        injection h2 with h2 _
        exact hb ⟨hc', h2⟩

theorem replaceBSDollar_cons_ne (c : Char) (hc : c ≠ '\\') (rest : Chars) :
    replaceBSDollar (c :: rest) = c :: replaceBSDollar rest := by
  rw [replaceBSDollar]
  intro r hcbs _
  exact hc hcbs

theorem replaceBSDollar_bs_ne (d : Char) (hd : d ≠ '$') (t : Chars) :
    replaceBSDollar ('\\' :: d :: t) = '\\' :: replaceBSDollar (d :: t) := by
  rw [replaceBSDollar]
  intro r _ h2
  injection h2 with h2 _
  exact hd h2

theorem replaceBSDollar_escape (s : Chars) (h : hasBSDollar s = false) :
    replaceBSDollar (escape_body_str s) = s := by
  induction s with
  | nil => rfl
  | cons c r ih =>
    have ht : hasBSDollar r = false := hasBSDollar_tail c r h
    by_cases hc : c = '$'
    · subst hc
      rw [escape_body_str_dollar, replaceBSDollar, ih ht]
    · rw [escape_body_str_other c hc]
      by_cases hbs : c = '\\'
      · subst hbs
        cases r with
        | nil => rfl
        | cons d t =>
          have hd : d ≠ '$' := by
            intro hd
            rw [hd] at h
            exact absurd h (by rw [hasBSDollar]; simp)
          rw [escape_body_str_other d hd, replaceBSDollar_bs_ne d hd,
            ← escape_body_str_other d hd, ih ht]
      · rw [replaceBSDollar_cons_ne c hbs, ih ht]

/-- Claim C8: for any string with no pre-existing `\$` escape pair,
escaping the dollars with `escape_body` and then generating a description
with `make_description` (whose string branch strips up to nine unescaped
tab-stop markers — there are none after escaping — and unescapes `\$`)
restores the original string exactly. -/
theorem c8_escape_description_roundtrip :
    ∀ (s trigger : Chars), hasBSDollar s = false →
      make_description (escape_body (.str s)) trigger = some s := by
  intro s trigger h
  rw [escape_body, make_description, mdStr, subTabStopDel_escape,
    replaceBSDollar_escape s h]

/-- Witness for C8 at the string `a$b\c` (a literal dollar and a lone
backslash, no `\$` pair). -/
theorem c8_witness :
    make_description (escape_body (.str (str2c "a$b\\c"))) (str2c "t") =
      some (str2c "a$b\\c") :=
  c8_escape_description_roundtrip (str2c "a$b\\c") (str2c "t") (by decide)

theorem pyIndex_eq_none (l : List Chars) (x : Chars) (h : x ∉ l) :
    pyIndex l x = none := by
  rw [pyIndex, List.findIdx?_eq_none_iff]
  intro y hy
  simp only [decide_eq_false_iff_not]
  intro he
  exact h (he ▸ hy)

/-- Claim C1: when the trigger line and macro line of an `.ini` block parse,
the macro is template-shaped, and the referenced template identifier has no
block in the `.dat` lines, `next_ini_entry` propagates the `ValueError` of
the failed `list.index` lookup (through `get_template` and
`get_macro_template`) and in particular never returns a snippet record —
partial or otherwise — for the entry. -/
theorem c1_lookup_failure_propagates :
    ∀ (l0 l1 l2 l3 : Chars) (rest dat : List Chars) (trig mac t : Chars)
      (i : Nat) (dg : Option Nat),
      TRIGGER_match l0 = some trig →
      MACRO_match l3 = some mac →
      matchTemplates mac = some (t, i, dg) →
      (t ++ ['\n']) ∉ dat →
      next_ini_entry (l0 :: l1 :: l2 :: l3 :: rest) dat = .error .valueError := by
  intro l0 l1 l2 l3 rest dat trig mac t i dg hT hM hTpl hdat
  have h0 : ¬ l0 = [] := by
    intro h
    rw [h, show TRIGGER_match [] = none from rfl] at hT
    cases hT
  have h3 : ¬ l3 = [] := by
    intro h
    rw [h, show MACRO_match [] = none from rfl] at hM
    cases hM
  simp only [next_ini_entry, get_ini_trigger, get_ini_macro, next_ini_line,
    List.drop_succ_cons, List.drop_zero, if_neg h0, if_neg h3, hT, hM,
    get_macro_template, hTpl, get_template,
    pyIndex_eq_none dat (t ++ ['\n']) hdat]

/-- Witness for C1 at the concrete block `iniBlockTemplate` against an
empty template table. -/
theorem c1_witness :
    next_ini_entry iniBlockTemplate [] = .error .valueError :=
  c1_lookup_failure_propagates
    (str2c "STRING=\"abc  \"\n") (str2c "!\n") (str2c "!\n")
    (str2c "  MACRO=\"[Assign('FasTeX','TRIG');Exe('%b\\Macros\\Active Strings\\FasTeX\\FasTeX_Templates.edt');]\"\n")
    [] [] (str2c "abc") macroTemplate (str2c "TRIG") 0 none
    (by decide) (by decide) (by decide) (by decide)

/-- Claim C7: any string with a line break serializes as a block string —
a bare `"""` line, each source line re-indented at the current level on its
own line, an indented closing `"""` — and any string without a line break
serializes as an inline double-quoted string; in particular the value
`\x7b"a": [1, "x\ny"]\x7d` at indent width 4 renders `a` as a mapping entry
opening a sequence whose second element is the three-inner-line block
(`"""`, `x`, `y`, `"""`), every one of those lines indented 8 spaces — one
level (4 spaces) deeper than the line holding the sequence marker `[`. -/
theorem c7_block_strings :
    dump csonExample 4 0 =
      str2c "    \"a\": [\n        1\n        \"\"\"\n        x\n        y\n        \"\"\"\n    ]\n" ∧
    ∀ (s : Chars) (ind : Nat) (lvl : Int),
      dump (.strv s) ind lvl =
        (if s.contains '\n' then
          str2c "\"\"\"\n" ++
            (pySplitlines s).flatMap
              (fun line => spacesFor ⟨ind, lvl, .top⟩ ++ line ++ ['\n']) ++
            (spacesFor ⟨ind, lvl, .top⟩ ++ str2c "\"\"\"")
         else '"' :: (s ++ ['"'])) ++ ['\n'] := by
  constructor
  · simp [dump, write, writeDict, writeDictEntries, writeList, writeListElems,
      writeStr, writeNum, writeRaw, spacesFor, pySplitlines, str2c, pyStrInt,
      writeBranch, pyIsStr, pyIsMapping, pyIsIterable, pyIsNumber, pyIsBool,
      csonExample]
    decide
  · intro s ind lvl
    rw [dump, write, writeStr]
    by_cases hc : List.contains s '\n' = true
    · rw [if_pos hc, if_pos hc]
      simp [writeRaw, show str2c "\"\"\"\n" = str2c "\"\"\"" ++ ['\n'] from by decide,
        List.append_assoc]
    · rw [if_neg hc, if_neg hc]
      simp [writeRaw,
        show ('\"' :: (s ++ ['\"'])) = str2c "\"" ++ s ++ ['\"'] from by simp [str2c],
        List.append_assoc]

/-- Claim C10: the serializer dispatch tests `Number` before `bool`, and a
Python boolean IS a `Number` (`bool` subclasses `int`), so `write` sends
booleans through `write_num`, emitting `str(b)` — `True` or `False` — and
the `bool` branch (which would emit lowercase `true` / `false` through
`write_bool`) is unreachable from `write` for every value. -/
theorem c10_bool_number_branch :
    (∀ v : CVal, writeBranch v ≠ .bbool) ∧
    (∀ b : Bool, writeBranch (.boolean b) = .bnum) ∧
    (∀ (b : Bool) (c : Ctx), write c false false (.boolean b) = pyStrBool b) ∧
    (∀ (b : Bool) (c : Ctx),
      writeBool c b = (if b then str2c "true" else str2c "false") ∧
      ¬ writeBool c b = pyStrBool b) := by
  refine ⟨?_, ?_, ?_, ?_⟩
  · intro v
    cases v <;> simp [writeBranch, pyIsStr, pyIsMapping, pyIsIterable,
      pyIsNumber, pyIsBool]
  · intro b
    rfl
  · intro b c
    rw [write]
    simp [writeNum, writeRaw]
  · intro b c
    have h1 : writeBool c b = (if b then str2c "true" else str2c "false") := by
      cases b <;> simp [writeBool, writeRaw]
    refine ⟨h1, ?_⟩
    rw [h1]
    cases b <;> decide

theorem dictPop_snd (key : String) (dflt : Bool) (d : List (String × Bool)) :
    (dictPop key dflt d).2 = d.filter (fun kv => kv.1 ≠ key) := by
  rw [dictPop]
  cases h : d.find? (fun kv => kv.1 = key) with
  | some kv => rfl
  | none =>
    simp only
    have : ∀ kv ∈ d, decide (kv.1 ≠ key) = true := by
      intro kv hkv
      have := List.find?_eq_none.mp h kv hkv
      simpa using this
    exact (List.filter_eq_self.mpr this).symm

theorem remaining_eq_unknownOptions (kwds : List (String × Bool)) :
    (dictPop "modern" false
      (dictPop "dollarfix" false
        (dictPop "textmaths" true
          (dictPop "singleline" true
            (dictPop "multiline" true kwds).2).2).2).2).2 = unknownOptions kwds := by
  rw [dictPop_snd, dictPop_snd, dictPop_snd, dictPop_snd, dictPop_snd, unknownOptions]
  simp only [List.filter_filter]
  apply List.filter_congr
  intro kv _
  by_cases h1 : kv.1 = "multiline" <;> by_cases h2 : kv.1 = "singleline" <;>
    by_cases h3 : kv.1 = "textmaths" <;> by_cases h4 : kv.1 = "dollarfix" <;>
    by_cases h5 : kv.1 = "modern" <;>
    simp [knownOptionKeys, h1, h2, h3, h4, h5]

theorem modern_live_no_keyError (snip : Snippet) (msg : String) :
    modern_live snip ≠ .error (.keyError msg) := by
  obtain ⟨p, body, mode, descr⟩ := snip
  cases body with
  | arr l =>
    rw [modern_live]
    dsimp only
    split <;> simp
  | str s =>
    rw [modern_live]
    dsimp only
    cases TEX_OLD_match s with
    | none => simp
    | some ab => simp

theorem applyLoop_no_keyError (pfxRules bodyRules : List (Chars → Bool))
    (multiline singleline textmaths dollarfix modern : Bool) :
    ∀ (l : List Snippet) (msg : String),
      applyLoop pfxRules bodyRules multiline singleline textmaths dollarfix modern l ≠
        .error (.keyError msg) := by
  intro l
  induction l with
  | nil =>
    intro msg h
    rw [applyLoop] at h
    cases h
  | cons snip rest ih =>
    intro msg h
    rw [applyLoop] at h
    split at h
    · exact ih msg h
    · dsimp only at h
      repeat' split at h
      all_goals try cases h
      all_goals first
        | exact modern_live_no_keyError _ msg (by assumption)
        | exact ih msg (by assumption)

/-- Claim C9: `apply_options` pops its five known keywords; when any other
keyword is present it raises a `KeyError` whose message names every unknown
key (joined in dict order), and it does so before touching any snippet —
the error is the same whatever the snippet list; with only known keywords
no such `KeyError` is ever raised (the only other error the loop can raise
is the `TypeError` of `_modern_live`). -/
theorem c9_apply_options_unknown_keys :
    ∀ (snips snips2 : List Snippet) (pfxR bodyR : List (Chars → Bool))
      (kwds : List (String × Bool)),
      (unknownOptions kwds ≠ [] →
        apply_options snips pfxR bodyR kwds =
          .error (.keyError ("Unknown key words: " ++
            String.intercalate ", " ((unknownOptions kwds).map (fun kv => kv.1)))) ∧
        apply_options snips pfxR bodyR kwds = apply_options snips2 pfxR bodyR kwds) ∧
      (unknownOptions kwds = [] →
        ∀ msg, apply_options snips pfxR bodyR kwds ≠ .error (.keyError msg)) := by
  intro snips snips2 pfxR bodyR kwds
  have hrem := remaining_eq_unknownOptions kwds
  constructor
  · intro hne
    have hone : ∀ (sl : List Snippet),
        apply_options sl pfxR bodyR kwds =
          .error (.keyError ("Unknown key words: " ++
            String.intercalate ", " ((unknownOptions kwds).map (fun kv => kv.1)))) := by
      intro sl
      rw [apply_options]
      rw [hrem, if_pos hne]
    exact ⟨hone snips, (hone snips).trans (hone snips2).symm⟩
  · intro heq msg
    rw [apply_options]
    rw [hrem, if_neg (fun hc => hc heq)]
    exact applyLoop_no_keyError pfxR bodyR _ _ _ _ _ snips msg

/-- Witness for C9 at the unknown keywords `bogus`, `zap` (first part) —
the error names both keys and is independent of the snippet list. -/
theorem c9_witness :
    apply_options [] [] [] [("bogus", true), ("zap", false)] =
      .error (.keyError ("Unknown key words: " ++
        String.intercalate ", "
          ((unknownOptions [("bogus", true), ("zap", false)]).map (fun kv => kv.1)))) ∧
    apply_options [] [] [] [("bogus", true), ("zap", false)] =
      apply_options [⟨str2c "t", .str (str2c "b"), "any", str2c "d"⟩] [] []
        [("bogus", true), ("zap", false)] :=
  (c9_apply_options_unknown_keys [] [⟨str2c "t", .str (str2c "b"), "any", str2c "d"⟩]
    [] [] [("bogus", true), ("zap", false)]).1 (by decide)
